import Mathlib

/-
Verification development for `scripts/wind_analysis.py`.

The script defines a class `WindAnalysis` holding a pandas DataFrame with a
wind-speed column (default `WS`) and a wind-direction column (default `WD`),
and two plotting methods:

  * `plot_wind_rose(wind_speed_col, wind_dir_col, bins, cmap)`
  * `plot_radial_bar(wind_speed_col, wind_dir_col, num_bins)`

We embed the data transformations of both methods shallowly: a DataFrame row
is a pair of optional rationals (`none` models pandas `NaN`), numeric values
are exact rationals, and each pandas/numpy call is translated to a Lean
function whose semantics is documented at its definition.  Rendering calls
(`ax.bar`, `ax.fill`, `plt.show`, ...) consume the computed sequences and are
not themselves modelled; every claim below is about the computed values that
the source hands to those calls.
-/

namespace WindAnalysisSpec

/-- A dataset row restricted to the two selected columns: wind speed and wind
direction.  `none` models a pandas `NaN` (missing value). -/
structure Row where
  ws : Option ℚ
  wd : Option ℚ
deriving DecidableEq, Repr

/-- The observation a row yields after `dropna`: `some (speed, direction)` when
both values are present, `none` when either is missing. -/
def toObs (r : Row) : Option (ℚ × ℚ) :=
  match r.ws, r.wd with
  | some s, some d => some (s, d)
  | _, _ => none

/-- Embedding of `self.data[[wind_speed_col, wind_dir_col]].dropna()`: select
the speed and direction columns and drop every row in which either value is
missing.  In pandas both the column selection with a list and `dropna()`
(default `inplace=False`) return a new DataFrame, so the result is a fresh
table and `self.data` is untouched. -/
def dropna (data : List Row) : List (ℚ × ℚ) :=
  data.filterMap toObs

/-- The default speed bins of `plot_wind_rose`:
`if bins is None: bins = [0, 1, 2, 3, 5, 10, 15, 20]`. -/
def defaultBins : List ℚ := [0, 1, 2, 3, 5, 10, 15, 20]

/-- The speed bin edges actually used by `plot_wind_rose` for a given `bins`
argument (`none` models Python `None`). -/
def windRoseBins (bins : Option (List ℚ)) : List ℚ :=
  bins.getD defaultBins

/-- The cleaned data that `plot_wind_rose` passes to `ax.bar` (direction and
speed of every complete row). -/
def windRoseData (data : List Row) : List (ℚ × ℚ) :=
  dropna data

/-- A cell count of the wind-rose histogram: the number of passed observations
whose direction lies in `[dlo, dhi)` and whose speed lies in `[slo, shi)`.
The windrose library computes its (direction sector, speed bin) cells as such
counts over exactly the data `plot_wind_rose` passes to `ax.bar`; an entry of
the pair is `(speed, direction)`. -/
def roseCellCount (data : List Row) (dlo dhi slo shi : ℚ) : ℕ :=
  ((windRoseData data).filter fun sd =>
    decide (dlo ≤ sd.2 ∧ sd.2 < dhi ∧ slo ≤ sd.1 ∧ sd.1 < shi)).length

/-- Entry `i` of `np.linspace(0, 360, num_bins + 1)`, in exact arithmetic:
`360 * i / num_bins`. -/
def edge (n i : ℕ) : ℚ := 360 * i / n

/-- Embedding of `bin_edges = np.linspace(0, 360, num_bins + 1)`. -/
def binEdges (n : ℕ) : List ℚ :=
  (List.range (n + 1)).map (edge n)

/-- The label of sector `i`:
`f"{int(bin_edges[i])}-{int(bin_edges[i + 1])}"`.  Python `int()` truncates
toward zero, which on these non-negative edges is the floor. -/
def sectorLabel (n i : ℕ) : String :=
  toString ⌊edge n i⌋ ++ "-" ++ toString ⌊edge n (i + 1)⌋

/-- The label list passed to `pd.cut` (`labels=[... for i in range(num_bins)]`). -/
def sectorLabels (n : ℕ) : List String :=
  (List.range n).map (sectorLabel n)

/-- Membership of a direction `d` in sector `i` of the `right=False` binning:
the half-open interval `[bin_edges[i], bin_edges[i+1])`. -/
def inSector (n i : ℕ) (d : ℚ) : Prop :=
  edge n i ≤ d ∧ d < edge n (i + 1)

instance (n i : ℕ) (d : ℚ) : Decidable (inSector n i d) := by
  unfold inSector; infer_instance

/-- Embedding of `pd.cut(..., bins=bin_edges, labels=..., right=False)` on one
direction value: the sector index whose half-open interval contains `d`, or
`none` (pandas `NaN`) when `d` falls outside every interval. -/
def cutSector (n : ℕ) (d : ℚ) : Option ℕ :=
  (List.range n).find? fun i => decide (inSector n i d)

/-- A row of the working copy `wind_data` after
`wind_data['sector'] = pd.cut(...)`: speed, direction, and the assigned
sector (a categorical value; `none` is `NaN`, meaning no sector). -/
structure SectoredRow where
  ws : ℚ
  wd : ℚ
  sector : Option ℕ
deriving DecidableEq, Repr

/-- Embedding of the sector-column assignment on the working copy. -/
def addSector (n : ℕ) (wd : List (ℚ × ℚ)) : List SectoredRow :=
  wd.map fun sd => ⟨sd.1, sd.2, cutSector n sd.2⟩

/-- The full `pd.cut(...)` call including its argument validation: pandas
requires the supplied `labels` to be pairwise distinct and raises
`ValueError` otherwise (the labels become the categories of a categorical,
and categories must be unique).  Because the labels here are `int()`-truncated
boundaries, they collide once sectors get narrower than the truncation can
distinguish (e.g. for `num_bins = 721` sectors 0 and 1 are both labeled
`"0-0"`), and then `plot_radial_bar` raises instead of binning anything. -/
def pdCutChecked (n : ℕ) (wd : List (ℚ × ℚ)) : Except String (List SectoredRow) :=
  if (sectorLabels n).Nodup then Except.ok (addSector n wd)
  else Except.error "ValueError: labels must be unique"

/-- The speed values grouped under sector `i` by
`wind_data.groupby('sector')[wind_speed_col]`: rows whose sector value is the
category `i`.  Rows whose sector is `NaN` (direction outside `[0, 360)`)
belong to no group. -/
def sectorRows (n : ℕ) (wd : List (ℚ × ℚ)) (i : ℕ) : List ℚ :=
  ((addSector n wd).filter fun r => decide (r.sector = some i)).map SectoredRow.ws

/-- The pandas mean of a column of values: `NaN` (`none`) for an empty group,
otherwise the exact average. -/
def meanOpt (l : List ℚ) : Option ℚ :=
  if l.isEmpty then none else some (l.sum / l.length)

/-- Embedding of `sector_avg = wind_data.groupby('sector')[wind_speed_col].mean()`.
The `sector` column is categorical with the `num_bins` labels as categories in
label order, and pandas groups a categorical key over all categories
(`observed=False`), so the result has exactly one entry per sector, in sector
order, with `NaN` (`none`) for a sector with no rows. -/
def sectorAvg (n : ℕ) (data : List Row) : List (Option ℚ) :=
  (List.range n).map fun i => meanOpt (sectorRows n (dropna data) i)

/-- Entry `i` of `angles = np.linspace(0, 2 * np.pi, num_bins, endpoint=False)`,
recorded in units of π radians (the numeric value is π times this rational):
`2 * i / num_bins`. -/
def angle (n i : ℕ) : ℚ := 2 * i / n

/-- The open angle sequence before the closing step. -/
def angles (n : ℕ) : List ℚ :=
  (List.range n).map (angle n)

/-- Embedding of `angles = np.concatenate((angles, [angles[0]]))`: the closing
step appends the first element.  For `n ≥ 1`, `List.headI` is exactly the
element `angles[0]` the source reads. -/
def closedAngles (n : ℕ) : List ℚ :=
  angles n ++ [(angles n).headI]

/-- Embedding of `values = np.concatenate((values, [values[0]]))` applied to
`values = sector_avg.values`. -/
def closedValues (n : ℕ) (data : List Row) : List (Option ℚ) :=
  sectorAvg n data ++ [(sectorAvg n data).headI]

/-- The `WindAnalysis` object: it holds the DataFrame passed to `__init__`. -/
structure WindAnalysis where
  data : List Row
deriving DecidableEq, Repr

/-- Explicit-state embedding of a `plot_wind_rose` call: the resulting object
state together with the values computed and handed to the renderer (the
resolved speed bins and the cleaned data given to `ax.bar`).  The method reads
`self.data` but never writes to it: its only table-producing statements are
the column selection and `dropna()`, both of which return new DataFrames. -/
def plotWindRoseRun (w : WindAnalysis) (bins : Option (List ℚ)) :
    WindAnalysis × List ℚ × List (ℚ × ℚ) :=
  (w, windRoseBins bins, windRoseData w.data)

/-- Explicit-state embedding of a `plot_radial_bar` call: the resulting object
state together with the working copy after the sector-column write and the
sequences handed to the renderer.  `wind_data` is a new DataFrame (column
selection followed by `dropna()`), so the statement
`wind_data['sector'] = pd.cut(...)` adds the sector column to that copy and
`self.data` is never written.  The run models a call on which the `pd.cut`
argument validation passes (its labels pairwise distinct, see
`pdCutChecked`); when the labels collide the call raises inside `pd.cut`,
before any table is produced, and in particular still without writing to
`self.data`. -/
def plotRadialBarRun (w : WindAnalysis) (n : ℕ) :
    WindAnalysis × List SectoredRow × List String × List ℚ × List (Option ℚ) :=
  let wind_data := addSector n (dropna w.data)
  (w, wind_data, sectorLabels n, closedAngles n, closedValues n w.data)

/-- A concrete dataset in which every row has a missing speed or a missing
direction, so `dropna` filters out every row. -/
def allNanData : List Row := [⟨none, some 10⟩, ⟨some 3, none⟩, ⟨none, none⟩]

/-- The end-to-end dataset of the spec: four rows at directions 0, 90, 180,
270 with speeds 1, 2, 3, 4. -/
def ds9 : List Row :=
  [⟨some 1, some 0⟩, ⟨some 2, some 90⟩, ⟨some 3, some 180⟩, ⟨some 4, some 270⟩]

/-- A one-row dataset whose single observation lies in sector 0 of a 2-sector
split, leaving sector 1 empty. -/
def dsOne : List Row := [⟨some 2, some 10⟩]

/-! ### Helper lemmas about the sector geometry -/

lemma edge_zero (n : ℕ) : edge n 0 = 0 := by
  simp [edge]

lemma edge_cast_pos {n : ℕ} (h : 1 ≤ n) : (0 : ℚ) < n := by
  exact_mod_cast Nat.lt_of_lt_of_le Nat.zero_lt_one h

lemma edge_last {n : ℕ} (h : 1 ≤ n) : edge n n = 360 := by
  have hn : (n : ℚ) ≠ 0 := ne_of_gt (edge_cast_pos h)
  field_simp [edge]

lemma edge_mono {n : ℕ} {i j : ℕ} (hij : i ≤ j) : edge n i ≤ edge n j := by
  rcases Nat.eq_zero_or_pos n with h0 | hpos
  · simp [edge, h0]
  · have hn : (0 : ℚ) < n := edge_cast_pos hpos
    have hc : (i : ℚ) ≤ j := by exact_mod_cast hij
    unfold edge
    gcongr

lemma edge_strict {n : ℕ} (h : 1 ≤ n) (i : ℕ) : edge n i < edge n (i + 1) := by
  have hn : (0 : ℚ) < n := edge_cast_pos h
  unfold edge
  rw [div_lt_div_iff₀ hn hn]
  have hc : (i : ℚ) < (i : ℚ) + 1 := by norm_num
  push_cast
  nlinarith

lemma edge_width {n : ℕ} (h : 1 ≤ n) (i : ℕ) :
    edge n (i + 1) - edge n i = 360 / n := by
  have hn : (n : ℚ) ≠ 0 := ne_of_gt (edge_cast_pos h)
  unfold edge
  field_simp
  ring

lemma inSector_disjoint {n i j : ℕ} {d : ℚ} (hij : i < j)
    (h1 : inSector n i d) (h2 : inSector n j d) : False := by
  have hle : edge n (i + 1) ≤ edge n j := edge_mono (by omega)
  exact absurd (lt_of_lt_of_le h1.2 (le_trans hle h2.1)) (lt_irrefl d)

lemma inSector_unique {n i j : ℕ} {d : ℚ}
    (h1 : inSector n i d) (h2 : inSector n j d) : i = j := by
  rcases Nat.lt_trichotomy i j with hlt | heq | hgt
  · exact absurd (inSector_disjoint hlt h1 h2) not_false
  · exact heq
  · exact absurd (inSector_disjoint hgt h2 h1) not_false

lemma cutSector_eq_some {n i : ℕ} {d : ℚ} (h : cutSector n d = some i) :
    i < n ∧ inSector n i d := by
  have hm := List.mem_of_find?_eq_some h
  have hp := List.find?_some h
  simp at hp
  exact ⟨List.mem_range.mp hm, hp⟩

lemma cutSector_eq_some_iff {n i : ℕ} {d : ℚ} :
    cutSector n d = some i ↔ i < n ∧ inSector n i d := by
  constructor
  · exact cutSector_eq_some
  · rintro ⟨hi, hin⟩
    have hex : ∃ x ∈ List.range n, decide (inSector n x d) = true :=
      ⟨i, List.mem_range.mpr hi, by simpa using hin⟩
    have hsome : (cutSector n d).isSome := by
      rw [cutSector, List.find?_isSome]
      simpa using hex
    rcases Option.isSome_iff_exists.mp hsome with ⟨j, hj⟩
    rcases cutSector_eq_some hj with ⟨_, hjin⟩
    rwa [inSector_unique hjin hin] at hj

lemma cutSector_cover {n : ℕ} (h : 1 ≤ n) {d : ℚ} (h0 : 0 ≤ d)
    (h360 : d < 360) : ∃ i, i < n ∧ cutSector n d = some i := by
  have hn : (0 : ℚ) < n := edge_cast_pos h
  set q : ℚ := d * n / 360 with hq
  have hq0 : 0 ≤ q := by positivity
  have hfl0 : 0 ≤ ⌊q⌋ := Int.floor_nonneg.mpr hq0
  refine ⟨⌊q⌋.toNat, ?_, ?_⟩
  · have hqn : q < n := by
      rw [hq, div_lt_iff₀ (by norm_num : (0 : ℚ) < 360)]
      calc d * n < 360 * n := by exact mul_lt_mul_of_pos_right h360 hn
        _ ≤ (n : ℚ) * 360 := by ring_nf; exact le_refl _
    have : ⌊q⌋ < (n : ℤ) := Int.floor_lt.mpr (by exact_mod_cast hqn)
    omega
  · rw [cutSector_eq_some_iff]
    have hcast : ((⌊q⌋.toNat : ℕ) : ℚ) = (⌊q⌋ : ℚ) := by
      exact_mod_cast congrArg Int.cast (Int.toNat_of_nonneg hfl0)
    have hqn : q < n := by
      rw [hq, div_lt_iff₀ (by norm_num : (0 : ℚ) < 360)]
      calc d * n < 360 * n := by exact mul_lt_mul_of_pos_right h360 hn
        _ ≤ (n : ℚ) * 360 := by ring_nf; exact le_refl _
    refine ⟨?_, ?_, ?_⟩
    · have : ⌊q⌋ < (n : ℤ) := Int.floor_lt.mpr (by exact_mod_cast hqn)
      omega
    · unfold edge
      rw [div_le_iff₀ hn, hcast]
      have h1 : (360 : ℚ) * ⌊q⌋ ≤ 360 * q :=
        mul_le_mul_of_nonneg_left (Int.floor_le q) (by norm_num)
      have h2 : (360 : ℚ) * q = d * n := by
        rw [hq]; field_simp
      linarith
    · unfold edge
      rw [lt_div_iff₀ hn]
      push_cast [hcast]
      have h1 : q < (⌊q⌋ : ℚ) + 1 := Int.lt_floor_add_one q
      have h2 : (360 : ℚ) * q = d * n := by
        rw [hq]; field_simp
      nlinarith

lemma cutSector_ge_360 {n : ℕ} {d : ℚ} (hd : (360 : ℚ) ≤ d) :
    cutSector n d = none := by
  rw [cutSector, List.find?_eq_none]
  intro i hi
  have hin : i < n := List.mem_range.mp hi
  have h1 : 1 ≤ n := by omega
  simp only [decide_eq_true_eq]
  rintro ⟨-, hlt⟩
  have hle : edge n (i + 1) ≤ edge n n := edge_mono (by omega)
  rw [edge_last h1] at hle
  exact absurd (lt_of_lt_of_le hlt (le_trans hle hd)) (lt_irrefl d)

lemma cutSector_360 (n : ℕ) : cutSector n (360 : ℚ) = none :=
  cutSector_ge_360 (le_refl _)

lemma floor_edge_eq {n i : ℕ} {z : ℤ} (h1 : (z : ℚ) ≤ edge n i)
    (h2 : edge n i < (z : ℚ) + 1) : ⌊edge n i⌋ = z := by
  rw [Int.floor_eq_iff]
  exact ⟨h1, h2⟩

/-! ### Helper lemmas about `dropna`, grouping, and shapes -/

lemma toObs_none {r : Row} (h : r.ws = none ∨ r.wd = none) : toObs r = none := by
  rcases r with ⟨ws, wd⟩
  rcases h with h | h
  · subst h; cases wd <;> rfl
  · subst h; cases ws <;> rfl

lemma dropna_middle (pre post : List Row) {r : Row} (h : toObs r = none) :
    dropna (pre ++ r :: post) = dropna (pre ++ post) := by
  simp [dropna, List.filterMap_append, List.filterMap_cons, h]

lemma dropna_middle_some (pre post : List Row) (s d : ℚ) :
    dropna (pre ++ (⟨some s, some d⟩ : Row) :: post) =
      dropna pre ++ (s, d) :: dropna post := by
  simp [dropna, List.filterMap_append, List.filterMap_cons, toObs]

lemma sectorRows_middle_noSector (n : ℕ) (a b : List (ℚ × ℚ)) {sd : ℚ × ℚ}
    (h : cutSector n sd.2 = none) (i : ℕ) :
    sectorRows n (a ++ sd :: b) i = sectorRows n (a ++ b) i := by
  simp [sectorRows, addSector, List.filter_append, List.filter_cons, h]

lemma sectorAvg_length (n : ℕ) (data : List Row) :
    (sectorAvg n data).length = n := by
  simp [sectorAvg]

lemma sectorAvg_getElem? {n i : ℕ} (data : List Row) (h : i < n) :
    (sectorAvg n data)[i]? = some (meanOpt (sectorRows n (dropna data) i)) := by
  simp [sectorAvg, List.getElem?_map, List.getElem?_range, h]

lemma angles_length (n : ℕ) : (angles n).length = n := by
  simp [angles]

lemma close_head_last {α : Type} [Inhabited α] {l : List α} (h : l ≠ []) :
    (l ++ [l.headI]).head? = (l ++ [l.headI]).getLast? := by
  rcases l with _ | ⟨a, t⟩
  · exact absurd rfl h
  · rw [List.getLast?_concat]
    rfl

lemma sectorLabels_eight :
    sectorLabels 8 = ["0-45", "45-90", "90-135", "135-180", "180-225",
      "225-270", "270-315", "315-360"] := by
  have f0 : ⌊edge 8 0⌋ = 0 :=
    floor_edge_eq (by norm_num [edge]) (by norm_num [edge])
  have f1 : ⌊edge 8 1⌋ = 45 :=
    floor_edge_eq (by norm_num [edge]) (by norm_num [edge])
  have f2 : ⌊edge 8 2⌋ = 90 :=
    floor_edge_eq (by norm_num [edge]) (by norm_num [edge])
  have f3 : ⌊edge 8 3⌋ = 135 :=
    floor_edge_eq (by norm_num [edge]) (by norm_num [edge])
  have f4 : ⌊edge 8 4⌋ = 180 :=
    floor_edge_eq (by norm_num [edge]) (by norm_num [edge])
  have f5 : ⌊edge 8 5⌋ = 225 :=
    floor_edge_eq (by norm_num [edge]) (by norm_num [edge])
  have f6 : ⌊edge 8 6⌋ = 270 :=
    floor_edge_eq (by norm_num [edge]) (by norm_num [edge])
  have f7 : ⌊edge 8 7⌋ = 315 :=
    floor_edge_eq (by norm_num [edge]) (by norm_num [edge])
  have f8 : ⌊edge 8 8⌋ = 360 :=
    floor_edge_eq (by norm_num [edge]) (by norm_num [edge])
  have h01 : (0 : ℕ) + 1 = 1 := rfl
  have h11 : (1 : ℕ) + 1 = 2 := rfl
  have h21 : (2 : ℕ) + 1 = 3 := rfl
  have h31 : (3 : ℕ) + 1 = 4 := rfl
  have h41 : (4 : ℕ) + 1 = 5 := rfl
  have h51 : (5 : ℕ) + 1 = 6 := rfl
  have h61 : (6 : ℕ) + 1 = 7 := rfl
  have h71 : (7 : ℕ) + 1 = 8 := rfl
  have hl : sectorLabels 8 =
      [sectorLabel 8 0, sectorLabel 8 1, sectorLabel 8 2, sectorLabel 8 3,
        sectorLabel 8 4, sectorLabel 8 5, sectorLabel 8 6, sectorLabel 8 7] := by
    simp [sectorLabels, List.range_succ]
  rw [hl, sectorLabel, sectorLabel, sectorLabel, sectorLabel, sectorLabel,
    sectorLabel, sectorLabel, sectorLabel,
    h01, h11, h21, h31, h41, h51, h61, h71,
    f0, f1, f2, f3, f4, f5, f6, f7, f8]
  rfl

/-! ### Claims -/

/-- C2: rows in which the speed or the direction is missing contribute to
neither chart: inserting such a row anywhere in the dataset changes neither
the data the wind rose bins (hence no cell count) nor any radial sector
mean. -/
theorem c2_missing_rows_never_contribute (pre post : List Row) (r : Row)
    (h : r.ws = none ∨ r.wd = none) (n : ℕ) (dlo dhi slo shi : ℚ) :
    windRoseData (pre ++ r :: post) = windRoseData (pre ++ post) ∧
    roseCellCount (pre ++ r :: post) dlo dhi slo shi =
      roseCellCount (pre ++ post) dlo dhi slo shi ∧
    sectorAvg n (pre ++ r :: post) = sectorAvg n (pre ++ post) := by
  have hobs : toObs r = none := toObs_none h
  have hd : dropna (pre ++ r :: post) = dropna (pre ++ post) :=
    dropna_middle pre post hobs
  refine ⟨?_, ?_, ?_⟩
  · simpa [windRoseData] using hd
  · simp [roseCellCount, windRoseData, hd]
  · simp [sectorAvg, hd]

theorem c2_witness :
    windRoseData ([⟨some 1, some 10⟩] ++ (⟨none, some 20⟩ : Row) :: []) =
      windRoseData ([⟨some 1, some 10⟩] ++ []) ∧
    roseCellCount ([⟨some 1, some 10⟩] ++ (⟨none, some 20⟩ : Row) :: []) 0 360 0 100 =
      roseCellCount ([⟨some 1, some 10⟩] ++ []) 0 360 0 100 ∧
    sectorAvg 4 ([⟨some 1, some 10⟩] ++ (⟨none, some 20⟩ : Row) :: []) =
      sectorAvg 4 ([⟨some 1, some 10⟩] ++ []) :=
  c2_missing_rows_never_contribute [⟨some 1, some 10⟩] [] ⟨none, some 20⟩
    (Or.inl rfl) 4 0 360 0 100

/-- C4: a direction of exactly 360 falls in no sector of the `right=False`
binning (the rightmost boundary is exclusive), so such a row is dropped by
the grouping and contributes to no sector mean. -/
theorem c4_direction_360_in_no_sector (n : ℕ) (pre post : List Row) (s : ℚ) :
    cutSector n (360 : ℚ) = none ∧
    sectorAvg n (pre ++ (⟨some s, some 360⟩ : Row) :: post) =
      sectorAvg n (pre ++ post) := by
  refine ⟨cutSector_360 n, ?_⟩
  have hd := dropna_middle_some pre post s 360
  have hsplit : dropna (pre ++ post) = dropna pre ++ dropna post := by
    simp [dropna, List.filterMap_append]
  have hrows := @sectorRows_middle_noSector n (dropna pre) (dropna post)
    (s, (360 : ℚ)) (cutSector_360 n)
  simp only [sectorAvg, hd, hsplit, hrows]

/-- C5: the computed average of a sector containing zero observations is the
missing value `none` (pandas `NaN`), never zero. -/
theorem c5_empty_sector_is_nan (n : ℕ) (data : List Row) (i : ℕ) (hi : i < n)
    (hempty : sectorRows n (dropna data) i = []) :
    (sectorAvg n data)[i]? = some none ∧
    (sectorAvg n data)[i]? ≠ some (some 0) := by
  have h := sectorAvg_getElem? data hi
  rw [hempty] at h
  have hm : meanOpt [] = none := rfl
  rw [hm] at h
  exact ⟨h, by rw [h]; simp⟩

theorem c5_witness :
    (sectorAvg 2 dsOne)[1]? = some none ∧
    (sectorAvg 2 dsOne)[1]? ≠ some (some 0) := by
  have hc : cutSector 2 (10 : ℚ) = some 0 :=
    cutSector_eq_some_iff.mpr ⟨by norm_num, by constructor <;> norm_num [edge]⟩
  have hempty : sectorRows 2 (dropna dsOne) 1 = [] := by
    simp [dsOne, dropna, toObs, sectorRows, addSector, hc]
  exact c5_empty_sector_is_nan 2 dsOne 1 (by norm_num) hempty

/-- C7: with `bins=None`, `plot_wind_rose` uses exactly the speed bin edges
0, 1, 2, 3, 5, 10, 15, 20, on every call (the resolution is a pure function
of the argument). -/
theorem c7_default_bins (w : WindAnalysis) :
    windRoseBins none = [0, 1, 2, 3, 5, 10, 15, 20] ∧
    (plotWindRoseRun w none).2.1 = [0, 1, 2, 3, 5, 10, 15, 20] :=
  ⟨rfl, rfl⟩

/-- C8: neither plotting method mutates the dataset held by the
`WindAnalysis` object: the object state after either call is the state
before it (the sector column is written only to the working copy
`wind_data`, itself built by column selection and `dropna()`, which both
return new DataFrames). -/
theorem c8_no_mutation (w : WindAnalysis) (bins : Option (List ℚ)) (n : ℕ) :
    (plotWindRoseRun w bins).1 = w ∧ (plotRadialBarRun w n).1 = w ∧
    (plotWindRoseRun w bins).1.data = w.data ∧
    (plotRadialBarRun w n).1.data = w.data :=
  ⟨rfl, rfl, rfl, rfl⟩

/-- C10: `sector_avg` always has exactly `num_bins` entries, one per sector
in sector order (grouping is by the categorical sector column, so unobserved
sectors are present with `NaN`); hence for `num_bins ≥ 1` the access
`values[0]` of the closing step is in bounds and the value sequence stays
aligned with the `num_bins` angle positions. -/
theorem c10_sector_avg_shape (n : ℕ) (data : List Row) :
    (sectorAvg n data).length = n ∧
    (sectorLabels n).length = n ∧
    (∀ i, i < n →
      (sectorAvg n data)[i]? = some (meanOpt (sectorRows n (dropna data) i))) ∧
    (∀ i, i < n → sectorRows n (dropna data) i = [] →
      (sectorAvg n data)[i]? = some none) ∧
    (1 ≤ n → 0 < (sectorAvg n data).length) ∧
    (angles n).length = (sectorAvg n data).length ∧
    (closedValues n data).length = (closedAngles n).length := by
  refine ⟨sectorAvg_length n data, by simp [sectorLabels], ?_, ?_, ?_, ?_, ?_⟩
  · intro i hi
    exact sectorAvg_getElem? data hi
  · intro i hi hempty
    have h := sectorAvg_getElem? data hi
    rw [hempty] at h
    exact h
  · intro h
    rw [sectorAvg_length]
    omega
  · rw [angles_length, sectorAvg_length]
  · simp [closedValues, closedAngles, sectorAvg_length, angles_length]

/-- C1: the claim fails on the code — when every row is filtered out the
radial-bar computation completes with no error signal at all: every sector
mean is the missing value and the renderer receives an all-missing value
sequence, i.e. a silent blank render rather than a "no data" error. -/
theorem c1_all_filtered_is_silent :
    dropna allNanData = [] ∧
    sectorAvg 8 allNanData =
      [none, none, none, none, none, none, none, none] ∧
    closedValues 8 allNanData =
      [none, none, none, none, none, none, none, none, none] ∧
    plotRadialBarRun ⟨allNanData⟩ 8 =
      (⟨allNanData⟩, [], sectorLabels 8, closedAngles 8,
        [none, none, none, none, none, none, none, none, none]) := by
  have hd : dropna allNanData = [] := by simp [allNanData, dropna, toObs]
  have hrows : ∀ i, sectorRows 8 (dropna allNanData) i = [] := by
    intro i; rw [hd]; rfl
  have hv : sectorAvg 8 allNanData =
      [none, none, none, none, none, none, none, none] := by
    simp [sectorAvg, List.range_succ, hrows, meanOpt]
  refine ⟨hd, hv, ?_, ?_⟩
  · simp [closedValues, hv]
  · simp [plotRadialBarRun, addSector, hd, closedValues, hv]

/-- C3 as stated fails on the code in two ways.  First, the sector labels
are built from `int()`-truncated boundary values, not the exact boundaries:
for `num_bins = 7`, sector 1 is the interval `[360/7, 720/7)` but is labeled
`"51-102"`, and its true lower boundary is not an integer at all, so no
label of the form `"<low>-<high>"` with the exact boundaries exists.
Second, the universal quantification over `num_bins ≥ 1` overreaches: for
`num_bins = 721` the truncated labels of sectors 0 and 1 are both `"0-0"`,
the label list is not duplicate-free, and the `pd.cut` call raises
`ValueError` instead of partitioning anything. -/
theorem c3_label_counterexample :
    sectorLabel 7 1 = "51-102" ∧
    edge 7 1 ≠ 51 ∧ edge 7 2 ≠ 102 ∧
    (¬ ∃ z : ℤ, edge 7 1 = (z : ℚ)) ∧
    sectorLabel 721 0 = "0-0" ∧ sectorLabel 721 1 = "0-0" ∧
    ¬ (sectorLabels 721).Nodup ∧
    pdCutChecked 721 [] = Except.error "ValueError: labels must be unique" := by
  have e1 : ⌊edge 7 1⌋ = 51 :=
    floor_edge_eq (by norm_num [edge]) (by norm_num [edge])
  have e2 : ⌊edge 7 2⌋ = 102 :=
    floor_edge_eq (by norm_num [edge]) (by norm_num [edge])
  have g0 : ⌊edge 721 0⌋ = 0 :=
    floor_edge_eq (by norm_num [edge]) (by norm_num [edge])
  have g1 : ⌊edge 721 1⌋ = 0 :=
    floor_edge_eq (by norm_num [edge]) (by norm_num [edge])
  have g2 : ⌊edge 721 2⌋ = 0 :=
    floor_edge_eq (by norm_num [edge]) (by norm_num [edge])
  have h01 : (0 : ℕ) + 1 = 1 := rfl
  have h11 : (1 : ℕ) + 1 = 2 := rfl
  have l0 : sectorLabel 721 0 = "0-0" := by rw [sectorLabel, h01, g0, g1]; rfl
  have l1 : sectorLabel 721 1 = "0-0" := by rw [sectorLabel, h11, g1, g2]; rfl
  have hnotnd : ¬ (sectorLabels 721).Nodup := by
    intro hnd
    have hnd2 : (List.map (sectorLabel 721) (List.range 721)).Nodup := hnd
    have h0m : (0 : ℕ) ∈ List.range 721 := List.mem_range.mpr (by norm_num)
    have h1m : (1 : ℕ) ∈ List.range 721 := List.mem_range.mpr (by norm_num)
    have heq : sectorLabel 721 0 = sectorLabel 721 1 := by rw [l0, l1]
    have hcon : (0 : ℕ) = 1 := List.inj_on_of_nodup_map hnd2 h0m h1m heq
    exact absurd hcon (by norm_num)
  refine ⟨?_, by norm_num [edge], by norm_num [edge], ?_, l0, l1, hnotnd, ?_⟩
  · rw [sectorLabel, h11, e1, e2]; rfl
  · rintro ⟨z, hz⟩
    rw [show edge 7 1 = 360 / 7 by norm_num [edge]] at hz
    rw [div_eq_iff (by norm_num : (7 : ℚ) ≠ 0)] at hz
    have hzz : (360 : ℤ) = z * 7 := by exact_mod_cast hz
    omega
  · rw [pdCutChecked, if_neg hnotnd]

/-- C3 amended: for every `num_bins ≥ 1` on which the `pd.cut` call is
accepted — its truncated labels pairwise distinct; for larger `num_bins`
(anything past 720) the labels collide and `pd.cut` raises `ValueError`
instead of binning — the call succeeds and the binning partitions `[0, 360)`
into `num_bins` equal-width, half-open, contiguous sectors with no gaps or
overlaps, the rightmost boundary of the whole range exclusive; each sector
is labeled `"<int(low)>-<int(high)>"` with the boundaries truncated to
integers (equal to `"<low>-<high>"` exactly when the boundaries are
integers); in particular for `num_bins = 8` the boundaries are exactly
0, 45, 90, ..., 360 and the labels `"0-45"`, ..., `"315-360"`. -/
theorem c3_sector_partition (n : ℕ) (h : 1 ≤ n)
    (hlab : (sectorLabels n).Nodup) :
    (∀ wd : List (ℚ × ℚ), pdCutChecked n wd = Except.ok (addSector n wd)) ∧
    edge n 0 = 0 ∧ edge n n = 360 ∧
    (∀ i, edge n (i + 1) - edge n i = 360 / n) ∧
    (∀ d : ℚ, 0 ≤ d → d < 360 → ∃ i, i < n ∧ cutSector n d = some i) ∧
    (∀ d : ℚ, ∀ i j, inSector n i d → inSector n j d → i = j) ∧
    (∀ d : ℚ, ∀ i, cutSector n d = some i ↔ i < n ∧ inSector n i d) ∧
    (∀ d : ℚ, 360 ≤ d → cutSector n d = none) ∧
    (∀ i, sectorLabel n i =
      toString ⌊edge n i⌋ ++ "-" ++ toString ⌊edge n (i + 1)⌋) ∧
    binEdges 8 = [0, 45, 90, 135, 180, 225, 270, 315, 360] ∧
    sectorLabels 8 = ["0-45", "45-90", "90-135", "135-180", "180-225",
      "225-270", "270-315", "315-360"] := by
  refine ⟨?_, edge_zero n, edge_last h, edge_width h, ?_, ?_, ?_, ?_, ?_, ?_,
    sectorLabels_eight⟩
  · intro wd
    rw [pdCutChecked, if_pos hlab]
  · intro d h0 h360
    exact cutSector_cover h h0 h360
  · intro d i j h1 h2
    exact inSector_unique h1 h2
  · intro d i
    exact cutSector_eq_some_iff
  · intro d hd
    exact cutSector_ge_360 hd
  · intro i
    rfl
  · norm_num [binEdges, edge, List.range_succ]

theorem c3_sector_partition_witness :
    (sectorLabels 8).Nodup ∧
    pdCutChecked 8 [] = Except.ok (addSector 8 []) ∧
    edge 8 0 = 0 ∧ edge 8 8 = 360 ∧
    (∃ i, i < 8 ∧ cutSector 8 (100 : ℚ) = some i) ∧
    binEdges 8 = [0, 45, 90, 135, 180, 225, 270, 315, 360] := by
  have hnd : (sectorLabels 8).Nodup := by
    rw [sectorLabels_eight]; decide
  obtain ⟨hA, hB, hC, _, hE, _, _, _, _, hJ, _⟩ :=
    c3_sector_partition 8 (by norm_num) hnd
  exact ⟨hnd, hA [], hB, hC, hE 100 (by norm_num) (by norm_num), hJ⟩

/-- C6: after the closing step both the angle sequence and the value
sequence handed to `ax.fill` have length `num_bins + 1`, and in each the
first element equals the last (the appended element is the first one). -/
theorem c6_closed_sequences (n : ℕ) (data : List Row) (h : 1 ≤ n) :
    (closedAngles n).length = n + 1 ∧
    (closedValues n data).length = n + 1 ∧
    (closedAngles n).head? = (closedAngles n).getLast? ∧
    (closedValues n data).head? = (closedValues n data).getLast? := by
  have ha : angles n ≠ [] := by
    intro hnil
    have hlen := angles_length n
    rw [hnil] at hlen
    simp at hlen
    omega
  have hv : sectorAvg n data ≠ [] := by
    intro hnil
    have hlen := sectorAvg_length n data
    rw [hnil] at hlen
    simp at hlen
    omega
  refine ⟨?_, ?_, close_head_last ha, close_head_last hv⟩
  · simp [closedAngles, angles_length]
  · simp [closedValues, sectorAvg_length]

theorem c6_witness :
    (closedAngles 8).length = 8 + 1 ∧
    (closedValues 8 ds9).length = 8 + 1 ∧
    (closedAngles 8).head? = (closedAngles 8).getLast? ∧
    (closedValues 8 ds9).head? = (closedValues 8 ds9).getLast? :=
  c6_closed_sequences 8 ds9 (by norm_num)

/-- C9: on the four-row dataset with directions 0, 90, 180, 270 and speeds
1, 2, 3, 4, a `num_bins = 4` radial bar computes sector means exactly
1, 2, 3, 4 for the sectors labeled "0-90", "90-180", "180-270",
"270-360". -/
theorem c9_end_to_end :
    sectorLabels 4 = ["0-90", "90-180", "180-270", "270-360"] ∧
    sectorAvg 4 ds9 = [some 1, some 2, some 3, some 4] := by
  have e0 : ⌊edge 4 0⌋ = 0 :=
    floor_edge_eq (by norm_num [edge]) (by norm_num [edge])
  have e1 : ⌊edge 4 1⌋ = 90 :=
    floor_edge_eq (by norm_num [edge]) (by norm_num [edge])
  have e2 : ⌊edge 4 2⌋ = 180 :=
    floor_edge_eq (by norm_num [edge]) (by norm_num [edge])
  have e3 : ⌊edge 4 3⌋ = 270 :=
    floor_edge_eq (by norm_num [edge]) (by norm_num [edge])
  have e4 : ⌊edge 4 4⌋ = 360 :=
    floor_edge_eq (by norm_num [edge]) (by norm_num [edge])
  have h01 : (0 : ℕ) + 1 = 1 := rfl
  have h11 : (1 : ℕ) + 1 = 2 := rfl
  have h21 : (2 : ℕ) + 1 = 3 := rfl
  have h31 : (3 : ℕ) + 1 = 4 := rfl
  constructor
  · have hl : sectorLabels 4 =
        [sectorLabel 4 0, sectorLabel 4 1, sectorLabel 4 2, sectorLabel 4 3] := by
      simp [sectorLabels, List.range_succ]
    rw [hl, sectorLabel, sectorLabel, sectorLabel, sectorLabel,
      h01, h11, h21, h31, e0, e1, e2, e3, e4]
    rfl
  · have hd : dropna ds9 = [(1, 0), (2, 90), (3, 180), (4, 270)] := by
      simp [ds9, dropna, toObs]
    have c0 : cutSector 4 (0 : ℚ) = some 0 :=
      cutSector_eq_some_iff.mpr
        ⟨by norm_num, by constructor <;> norm_num [edge]⟩
    have c90 : cutSector 4 (90 : ℚ) = some 1 :=
      cutSector_eq_some_iff.mpr
        ⟨by norm_num, by constructor <;> norm_num [edge]⟩
    have c180 : cutSector 4 (180 : ℚ) = some 2 :=
      cutSector_eq_some_iff.mpr
        ⟨by norm_num, by constructor <;> norm_num [edge]⟩
    have c270 : cutSector 4 (270 : ℚ) = some 3 :=
      cutSector_eq_some_iff.mpr
        ⟨by norm_num, by constructor <;> norm_num [edge]⟩
    have r0 : sectorRows 4 (dropna ds9) 0 = [1] := by
      rw [hd]; simp [sectorRows, addSector, c0, c90, c180, c270]
    have r1 : sectorRows 4 (dropna ds9) 1 = [2] := by
      rw [hd]; simp [sectorRows, addSector, c0, c90, c180, c270]
    have r2 : sectorRows 4 (dropna ds9) 2 = [3] := by
      rw [hd]; simp [sectorRows, addSector, c0, c90, c180, c270]
    have r3 : sectorRows 4 (dropna ds9) 3 = [4] := by
      rw [hd]; simp [sectorRows, addSector, c0, c90, c180, c270]
    have hs : sectorAvg 4 ds9 =
        [meanOpt [1], meanOpt [2], meanOpt [3], meanOpt [4]] := by
      simp [sectorAvg, List.range_succ, r0, r1, r2, r3]
    rw [hs]
    norm_num [meanOpt]

theorem c10_witness :
    (sectorAvg 3 allNanData).length = 3 ∧
    (sectorAvg 3 allNanData)[0]? = some none ∧
    0 < (sectorAvg 3 allNanData).length := by
  have h := c10_sector_avg_shape 3 allNanData
  refine ⟨h.1, ?_, h.2.2.2.2.1 (by norm_num)⟩
  exact h.2.2.2.1 0 (by norm_num)
    (by simp [allNanData, dropna, toObs, sectorRows, addSector])

end WindAnalysisSpec
